import Mathlib

/-
Shallow embedding of the otlp-metrics crate: the concurrent metric value
types (src/metric.rs), the recorder registry (src/otlp_recorder.rs) and the
OTLP JSON serializer (src/json.rs).

Modelling conventions:
  - Rust f64 values are modelled by the type `F` below: exact rationals for
    finite values plus the special values nan, inf and negInf, with the IEEE
    comparison and addition behaviour the code relies on (every comparison
    against nan is false; addition with nan yields nan).  Binary rounding of
    decimal literals is not modelled: parsed bounds are kept as exact
    rationals, which preserves the order comparisons the code performs.
  - AtomicU64 cells are modelled as plain naturals below 2^64; the atomic
    read-modify-write loops of the source always succeed in a sequential
    model, so each Rust method becomes a pure state-transformer taking the
    clock reading (current_time) as an explicit argument.
  - Rust u64 addition wraps, hence the mod 2^64 in CounterValue.increment
    and in every fetch_add of HistogramValue.record (the observation count
    and the bucket counters); fetch_max cannot overflow.
-/

namespace OtlpMetrics

/-- Number of values of a 64 bit machine word. -/
def U64 : ℕ := 2 ^ 64

/-- Model of Rust f64: nan, the two infinities, or a finite value kept as an
exact rational. -/
inductive F where
  | nan : F
  | inf : F
  | negInf : F
  | fin (q : ℚ) : F
deriving DecidableEq

/-- IEEE comparison of modelled doubles, at most: false whenever either side
is nan. -/
def F.le : F → F → Bool
  | .nan, _ => false
  | _, .nan => false
  | .negInf, _ => true
  | _, .negInf => false
  | .inf, .inf => true
  | .inf, .fin _ => false
  | .fin _, .inf => true
  | .fin a, .fin b => decide (a ≤ b)

/-- IEEE comparison of modelled doubles, strictly below: false whenever
either side is nan. -/
def F.lt : F → F → Bool
  | .nan, _ => false
  | _, .nan => false
  | .negInf, .negInf => false
  | .negInf, _ => true
  | _, .negInf => false
  | .inf, _ => false
  | .fin _, .inf => true
  | .fin a, .fin b => decide (a < b)

/-- IEEE addition of modelled doubles: nan propagates, inf plus negInf is
nan. -/
def F.add : F → F → F
  | .nan, _ => .nan
  | _, .nan => .nan
  | .inf, .negInf => .nan
  | .negInf, .inf => .nan
  | .inf, _ => .inf
  | _, .inf => .inf
  | .negInf, _ => .negInf
  | _, .negInf => .negInf
  | .fin a, .fin b => .fin (a + b)

/-- CounterValue of metric.rs: two AtomicU64 cells (value and last-update
time); Default initialises both to zero. -/
structure CounterValue where
  value : ℕ
  time : ℕ
deriving DecidableEq

/-- CounterFn::increment: fetch_add on value (wrapping u64 addition) and a
swap of the time cell with current_time(). -/
def CounterValue.increment (c : CounterValue) (now : ℕ) (delta : ℕ) : CounterValue :=
  { value := (c.value + delta) % U64, time := now }

/-- CounterFn::absolute: fetch_max on value and a swap of the time cell with
current_time(). -/
def CounterValue.absolute (c : CounterValue) (now : ℕ) (v : ℕ) : CounterValue :=
  { value := max c.value v, time := now }

/-- GaugeValue of metric.rs: an AtomicU64 holding an f64 bit pattern plus a
last-update time; Default gives bit pattern zero, that is 0.0. -/
structure GaugeValue where
  value : F
  time : ℕ
deriving DecidableEq

/-- GaugeFn::set: unconditional swap of the stored bit pattern. -/
def GaugeValue.set (_g : GaugeValue) (now : ℕ) (v : F) : GaugeValue :=
  { value := v, time := now }

/-- HistogramValue of metric.rs.  Default: sum bits zero (0.0), count zero,
time zero, no bounds and no buckets. -/
structure HistogramValue where
  sum : F
  count : ℕ
  time : ℕ
  explicit_bounds : List F
  bucket_count : List ℕ
deriving DecidableEq

/-- HistogramValue::from_bounds: starts from Default; when the bound list is
non-empty it stores the bounds and one zeroed bucket per bound plus one
overflow bucket. -/
def HistogramValue.from_bounds (bounds : List F) : HistogramValue :=
  if bounds.isEmpty then
    { sum := F.fin 0, count := 0, time := 0, explicit_bounds := [], bucket_count := [] }
  else
    { sum := F.fin 0, count := 0, time := 0, explicit_bounds := bounds,
      bucket_count := List.replicate (bounds.length + 1) 0 }

/-- The bound-scanning loop of HistogramFn::record, after the first bound
and bucket have been taken from the iterators.  The first pattern is the
iteration where the bound iterator returned None: the current bucket is the
overflow bucket and it is incremented when value > prev, then the loop
breaks, leaving later buckets (there are none in well-formed states)
untouched.  The second pattern is the iteration with a bound b: the current
bucket is incremented when prev < value and value <= b.  The Rust code would
halt on a bucket iterator that runs dry while bounds remain; from_bounds
always allocates one bucket more than there are bounds, so that state is
unreachable, and the model returns the empty remainder there. -/
def bucketLoop (value : F) : F → List F → List ℕ → List ℕ
  | prev, [], bucket :: rest =>
      (if F.lt prev value then (bucket + 1) % U64 else bucket) :: rest
  | prev, b :: bs, bucket :: rest =>
      (if F.lt prev value && F.le value b then (bucket + 1) % U64 else bucket) ::
        bucketLoop value b bs rest
  | _, _, [] => []

/-- HistogramFn::record: adds value to the running sum (CAS loop on the f64
bit pattern, always succeeding sequentially), updates the bucket counters
when bounds are configured, increments the observation count, and stores
current_time().  The head bucket is incremented when value <= first bound;
the remaining buckets are handled by bucketLoop exactly as the source loop
does. -/
def HistogramValue.record (h : HistogramValue) (now : ℕ) (value : F) : HistogramValue :=
  { sum := F.add h.sum value,
    count := (h.count + 1) % U64,
    time := now,
    explicit_bounds := h.explicit_bounds,
    bucket_count :=
      if h.explicit_bounds.isEmpty then h.bucket_count
      else
        match h.explicit_bounds, h.bucket_count with
        | prev :: bs, bucket :: rest =>
            (if F.le value prev then (bucket + 1) % U64 else bucket) ::
              bucketLoop value prev bs rest
        | _, _ => h.bucket_count }

/-- Apply the wrapping u64 increment (the fetch_add of the source) to the
entry at a given position of a counter list, leaving every other entry
unchanged (out-of-range positions leave the list unchanged). -/
def incrAt : List ℕ → ℕ → List ℕ
  | [], _ => []
  | x :: rest, 0 => ((x + 1) % U64) :: rest
  | x :: rest, n + 1 => x :: incrAt rest n

/-- Bucket index as the specification words it: the index of the first bound
that is greater than or equal to the value, or the overflow index (the
number of bounds) when the value exceeds every bound. -/
def specBucketIndex (x : F) : List ℚ → ℕ
  | [] => 0
  | b :: bs => if F.le x (F.fin b) then 0 else specBucketIndex x bs + 1

/-- Metric identity (the metrics crate Key): a name plus ordered labels,
each a key/value string pair. -/
structure Key where
  name : String
  labels : List (String × String)
deriving DecidableEq

/-- Pending description declaration (MetricDescription of metric.rs); the
unit is kept as its canonical short label. -/
structure MetricDescription where
  key : String
  description : String
  unit : Option String
deriving DecidableEq

/-- MetricType of metric.rs: the tagged union over the three accumulators,
holding the accumulator state the shared Arc points at. -/
inductive MetricType where
  | counter (c : CounterValue)
  | gauge (g : GaugeValue)
  | histogram (h : HistogramValue)
deriving DecidableEq

/-- The Display rendering of MetricType, used in the kind-mismatch
message. -/
def MetricType.display : MetricType → String
  | .counter _ => "counter"
  | .gauge _ => "gauge"
  | .histogram _ => "histogram"

/-- MetricData of metric.rs. -/
structure MetricData where
  start_time : ℕ
  description : String
  unit : Option String
  metric_type : MetricType
deriving DecidableEq

/-- MetricData::basic: empty description, no unit, start time taken from
current_time(). -/
def MetricData.basic (now : ℕ) (t : MetricType) : MetricData :=
  { start_time := now, description := "", unit := none, metric_type := t }

/-- MetricData::unit(): the canonical unit label, defaulting to "1". -/
def MetricData.unitLabel (m : MetricData) : String :=
  m.unit.getD "1"

/-- OtlpRecorder state: resource fields plus the ordered metric collection
and the pending description list (both Mutex-protected in the source). -/
structure OtlpRecorder where
  name : String
  version : String
  instance_id : String
  metrics : List (Key × MetricData)
  descriptions : List MetricDescription
deriving DecidableEq

/-- OtlpRecorder::new. -/
def OtlpRecorder.new (name version instance_id : String) : OtlpRecorder :=
  { name := name, version := version, instance_id := instance_id,
    metrics := [], descriptions := [] }

/-- OtlpRecorder::update_description: binds the first pending declaration
whose bare name matches, overwriting description and unit of the fresh
metric. -/
def OtlpRecorder.update_description (r : OtlpRecorder) (key : String)
    (metric : MetricData) : MetricData :=
  match r.descriptions.find? (fun d => d.key == key) with
  | some d => { metric with description := d.description, unit := d.unit }
  | none => metric

/-- OtlpRecorder::add_description (the describe_counter, describe_gauge and
describe_histogram entry points all forward here): pushes a pending
declaration. -/
def OtlpRecorder.add_description (r : OtlpRecorder) (key : String)
    (unit : Option String) (description : String) : OtlpRecorder :=
  { r with
    descriptions := r.descriptions ++ [{ key := key, description := description, unit := unit }] }

/-- OtlpRecorder::add_metric: binds any pending description and appends the
metric to the ordered collection. -/
def OtlpRecorder.add_metric (r : OtlpRecorder) (key : Key) (metric : MetricData) : OtlpRecorder :=
  { r with metrics := r.metrics ++ [(key, r.update_description key.name metric)] }

/-- The two registration-time programming-error halts of the source: the
kind-mismatch halt of the shared early-return helper, and the
invalid-bucket halt of register_histogram, each carrying the offending
text. -/
inductive RegisterError where
  | kindMismatch (found : String)
  | invalidBucket (entry : String)
deriving DecidableEq

/-- Numeric value of a digit string. -/
def digitsVal (cs : List Char) : ℕ :=
  cs.foldl (fun a c => a * 10 + (c.toNat - 48)) 0

/-- Exponent tail of the f64 grammar (input already lowercased): empty means
exponent zero; otherwise the letter e, an optional sign, and at least one
digit, consuming the whole remainder. -/
def parseExp (cs : List Char) : Option ℤ :=
  match cs with
  | [] => some 0
  | 'e' :: rest =>
    match rest with
    | '+' :: ds => if ds ≠ [] ∧ ds.all Char.isDigit then some (digitsVal ds) else none
    | '-' :: ds => if ds ≠ [] ∧ ds.all Char.isDigit then some (-(digitsVal ds : ℤ)) else none
    | ds => if ds ≠ [] ∧ ds.all Char.isDigit then some (digitsVal ds) else none
  | _ => none

/-- Rational value of a digit string shifted by a decimal exponent. -/
def decValue (ds : List Char) (shift : ℤ) : ℚ :=
  if 0 ≤ shift then (digitsVal ds : ℚ) * 10 ^ shift.toNat
  else (digitsVal ds : ℚ) / 10 ^ (-shift).toNat

/-- Number production of the f64 grammar: digits, an optional point with
further digits, and an optional exponent; at least one digit must be
present.  The value is kept exact rather than rounded to the nearest
double. -/
def parseNumber (cs : List Char) (neg : Bool) : Option F :=
  match cs.dropWhile Char.isDigit with
  | '.' :: rest2 =>
    if (cs.takeWhile Char.isDigit).isEmpty ∧ (rest2.takeWhile Char.isDigit).isEmpty then none
    else
      (parseExp (rest2.dropWhile Char.isDigit)).map fun e =>
        F.fin ((if neg then -1 else 1) *
          decValue (cs.takeWhile Char.isDigit ++ rest2.takeWhile Char.isDigit)
            (e - (rest2.takeWhile Char.isDigit).length))
  | rest =>
    if (cs.takeWhile Char.isDigit).isEmpty then none
    else
      (parseExp rest).map fun e =>
        F.fin ((if neg then -1 else 1) * decValue (cs.takeWhile Char.isDigit) e)

/-- Body of the f64 grammar after the optional sign: the case-insensitive
special values inf, infinity and nan, or a number. -/
def parseBody (cs : List Char) (neg : Bool) : Option F :=
  if cs = ['i', 'n', 'f'] ∨ cs = ['i', 'n', 'f', 'i', 'n', 'i', 't', 'y'] then
    some (if neg then F.negInf else F.inf)
  else if cs = ['n', 'a', 'n'] then some F.nan
  else parseNumber cs neg

/-- Model of the standard f64 string parse that register_histogram applies
to each bucket entry: the documented grammar of the standard library, with
finite values kept as exact rationals. -/
def parseF64 (s : String) : Option F :=
  match s.data.map Char.toLower with
  | '+' :: rest => parseBody rest false
  | '-' :: rest => parseBody rest true
  | rest => parseBody rest false

/-- The str split on a comma, as the Rust iterator yields it: the pieces
between commas, with empty pieces kept (the empty string yields one empty
piece). -/
def splitCommaAux (cur : List Char) : List Char → List String
  | [] => [String.mk cur.reverse]
  | c :: rest =>
    if c = ',' then String.mk cur.reverse :: splitCommaAux [] rest
    else splitCommaAux (c :: cur) rest

/-- Split a string on commas. -/
def splitComma (s : String) : List String :=
  splitCommaAux [] s.data

/-- Whitespace test for trim; the source trims per Unicode, and the bucket
entries of interest are ASCII. -/
def isWS (c : Char) : Bool :=
  c == ' ' || c == '\t' || c == '\n' || c == '\r'

/-- The str trim of Rust: strip leading and trailing whitespace. -/
def trimChars (s : String) : String :=
  String.mk (((s.data.dropWhile isWS).reverse.dropWhile isWS).reverse)

/-- The bucket-bound collection of register_histogram: each comma-separated
entry is trimmed and parsed; the first entry that fails to parse halts
registration (modelled as the invalidBucket error). -/
def parseBounds : List String → Except RegisterError (List F)
  | [] => .ok []
  | v :: rest =>
    match parseF64 (trimChars v) with
    | some f => (parseBounds rest).map fun bs => f :: bs
    | none => .error (.invalidBucket v)

/-- Recorder::register_counter.  The shared early-return helper looks for
the first metric whose name matches: if it is a counter the existing
accumulator is returned (the handle is its position in the ordered
collection, the slot the shared Arc designates, so updates through any
handle with that position hit the same accumulator); a different kind halts
the registering thread.  Otherwise a fresh zeroed counter is appended and
its handle returned. -/
def OtlpRecorder.register_counter (r : OtlpRecorder) (now : ℕ) (key : Key) :
    Except RegisterError (OtlpRecorder × ℕ) :=
  match r.metrics.find? (fun q => q.1.name == key.name) with
  | some p =>
    match p.2.metric_type with
    | .counter _ => .ok (r, r.metrics.findIdx (fun q => q.1.name == key.name))
    | t => .error (.kindMismatch t.display)
  | none =>
    .ok (r.add_metric key (MetricData.basic now (.counter { value := 0, time := 0 })),
      r.metrics.length)

/-- Recorder::register_gauge, same shape as register_counter. -/
def OtlpRecorder.register_gauge (r : OtlpRecorder) (now : ℕ) (key : Key) :
    Except RegisterError (OtlpRecorder × ℕ) :=
  match r.metrics.find? (fun q => q.1.name == key.name) with
  | some p =>
    match p.2.metric_type with
    | .gauge _ => .ok (r, r.metrics.findIdx (fun q => q.1.name == key.name))
    | t => .error (.kindMismatch t.display)
  | none =>
    .ok (r.add_metric key (MetricData.basic now (.gauge { value := F.fin 0, time := 0 })),
      r.metrics.length)

/-- Recorder::register_histogram.  The early-return helper runs first; only
when no metric with the name exists are the bounds derived from the first
label whose key is the literal string buckets, by splitting its value on
commas and parsing each trimmed entry. -/
def OtlpRecorder.register_histogram (r : OtlpRecorder) (now : ℕ) (key : Key) :
    Except RegisterError (OtlpRecorder × ℕ) :=
  match r.metrics.find? (fun q => q.1.name == key.name) with
  | some p =>
    match p.2.metric_type with
    | .histogram _ => .ok (r, r.metrics.findIdx (fun q => q.1.name == key.name))
    | t => .error (.kindMismatch t.display)
  | none =>
    match
      (match key.labels.find? (fun l => l.1 == "buckets") with
       | some l => parseBounds (splitComma l.2)
       | none => .ok []) with
    | .error e => .error e
    | .ok bounds =>
      .ok (r.add_metric key
        (MetricData.basic now (.histogram (HistogramValue.from_bounds bounds))),
        r.metrics.length)

/-- JSON document tree (the json crate JsonValue); object fields keep
insertion order.  The final stringify step of metrics_to_json is not
modelled: the claims are settled on the document tree. -/
inductive Json where
  | str (s : String)
  | num (n : ℕ)
  | fnum (v : F)
  | boolean (b : Bool)
  | arr (items : List Json)
  | obj (fields : List (String × Json))

/-- The attr helper of json.rs. -/
def attr (key value : String) : Json :=
  Json.obj [("key", Json.str key), ("value", Json.obj [("stringValue", Json.str value)])]

/-- The counter node of json.rs. -/
def counterJson (key : Key) (data : MetricData) (value : CounterValue) : Json :=
  Json.obj [("name", Json.str key.name), ("unit", Json.str data.unitLabel),
    ("description", Json.str data.description),
    ("sum", Json.obj [("aggregationTemporality", Json.num 2),
      ("isMonotonic", Json.boolean true),
      ("dataPoints", Json.arr [Json.obj [
        ("asInt", Json.num value.value),
        ("startTimeUnixNano", Json.num data.start_time),
        ("timeUnixNano", Json.num value.time),
        ("attributes", Json.arr (key.labels.map fun l => attr l.1 l.2))]])])]

/-- The gauge node of json.rs. -/
def gaugeJson (key : Key) (data : MetricData) (value : GaugeValue) : Json :=
  Json.obj [("name", Json.str key.name), ("unit", Json.str data.unitLabel),
    ("description", Json.str data.description),
    ("gauge", Json.obj [
      ("dataPoints", Json.arr [Json.obj [
        ("asDouble", Json.fnum value.value),
        ("startTimeUnixNano", Json.num data.start_time),
        ("timeUnixNano", Json.num value.time),
        ("attributes", Json.arr (key.labels.map fun l => attr l.1 l.2))]])])]

/-- The histogram node of json.rs. -/
def histogramJson (key : Key) (data : MetricData) (value : HistogramValue) : Json :=
  Json.obj [("name", Json.str key.name), ("unit", Json.str data.unitLabel),
    ("description", Json.str data.description),
    ("histogram", Json.obj [("aggregationTemporality", Json.num 2),
      ("dataPoints", Json.arr [Json.obj [
        ("startTimeUnixNano", Json.num data.start_time),
        ("timeUnixNano", Json.num value.time),
        ("count", Json.num value.count),
        ("sum", Json.fnum value.sum),
        ("attributes", Json.arr (key.labels.map fun l => attr l.1 l.2)),
        ("bucketCounts", Json.arr (value.bucket_count.map Json.num)),
        ("explicitBounds", Json.arr (value.explicit_bounds.map Json.fnum))]])])]

/-- The root document of json.rs, exactly as the source builds it: the
function takes only the resource name and the version, and the single
resource attribute it emits uses the service name as the attribute key and
the version as its string value. -/
def root (name version : String) (values : List (Key × MetricData)) : Json :=
  Json.obj [("resourceMetrics", Json.arr [Json.obj [
    ("resource", Json.obj [("attributes", Json.arr [attr name version])]),
    ("scopeMetrics", Json.arr [Json.obj [("metrics", Json.arr (values.map fun kv =>
      match kv.2.metric_type with
      | .counter m => counterJson kv.1 kv.2 m
      | .gauge m => gaugeJson kv.1 kv.2 m
      | .histogram m => histogramJson kv.1 kv.2 m))]])]])]

/-- metrics_to_json of json.rs, up to the unmodelled stringify step. -/
def metrics_to_json (name version : String) (values : List (Key × MetricData)) : Json :=
  root name version values

/-- The last-update time the windowing filter of to_json reads: the three
match arms of the source each load the time cell of the accumulator. -/
def metricTime (m : MetricData) : ℕ :=
  match m.metric_type with
  | .counter v => v.time
  | .gauge v => v.time
  | .histogram v => v.time

/-- The metrics_to_output selection of OtlpRecorder::to_json: with a window
period, keep the metrics whose last update is within the period of now
(wrapping u64 subtraction, as the release build computes it); without a
window keep everything.  current_time() is modelled as the single snapshot
instant now, and the window as its nanosecond count already narrowed to
u64. -/
def snapshotMetrics (now : ℕ) (period : Option ℕ) (r : OtlpRecorder) :
    List (Key × MetricData) :=
  match period with
  | some p => r.metrics.filter fun q => decide (((now + U64) - metricTime q.2) % U64 ≤ p)
  | none => r.metrics

/-- OtlpRecorder::to_json as a state transformer: the document built from
the selected metrics, paired with the recorder state after the call.  Every
step the source performs is a read (lock the collection, filter by time,
serialize), so the state component is the unchanged input state.  Note the
source hands name, version and instance_id to metrics_to_json even though
that function only accepts name and version (see the C1 theorem). -/
def OtlpRecorder.to_json (r : OtlpRecorder) (now : ℕ) (period : Option ℕ) :
    Json × OtlpRecorder :=
  (metrics_to_json r.name r.version (snapshotMetrics now period r), r)

/-- Helper reading the key field of an attribute node. -/
def attrKeyOf : Json → String
  | .obj (("key", .str k) :: _) => k
  | _ => ""

/-- Sample histogram with bounds 1, 2, 100, as in the metric.rs unit test. -/
def sampleHist : HistogramValue :=
  HistogramValue.from_bounds [F.fin 1, F.fin 2, F.fin 100]

/-- Sample histogram with the single bound 1, still fresh. -/
def sampleHistNan : HistogramValue := HistogramValue.from_bounds [F.fin 1]

/-- Sample histogram with the single bound 1 whose observation count has
reached 2^64 - 1: the state that 2^64 - 1 nan records produce from the
fresh histogram. -/
def sampleHistBig : HistogramValue :=
  { sum := F.fin 0, count := U64 - 1, time := 0,
    explicit_bounds := [F.fin 1], bucket_count := [0, 0] }

/-- Sample counter identity. -/
def sampleKeyC : Key := { name := "test_counter", labels := [("label1", "label_value1")] }

/-- Sample counter metric whose last update happened at time 100. -/
def sampleCounterData : MetricData :=
  { start_time := 50, description := "", unit := none,
    metric_type := .counter { value := 2, time := 100 } }

/-- Sample registry holding the one counter metric. -/
def sampleWinReg : OtlpRecorder :=
  { name := "otlp-metrics", version := "1", instance_id := "i",
    metrics := [(sampleKeyC, sampleCounterData)], descriptions := [] }

/-- Sample gauge metric. -/
def sampleGaugeData : MetricData :=
  { start_time := 0, description := "", unit := none,
    metric_type := .gauge { value := F.fin 0, time := 0 } }

/-- Sample histogram metric without bounds. -/
def sampleHistData : MetricData :=
  { start_time := 0, description := "", unit := none,
    metric_type := .histogram (HistogramValue.from_bounds []) }

/-- Sample registry holding one metric of each kind. -/
def sampleReg3 : OtlpRecorder :=
  { name := "s", version := "v", instance_id := "i",
    metrics := [(sampleKeyC, sampleCounterData),
      ({ name := "test_gauge", labels := [] }, sampleGaugeData),
      ({ name := "test_histogram", labels := [] }, sampleHistData)],
    descriptions := [] }

/-- Sample registry holding an existing histogram named h. -/
def sampleHistReg : OtlpRecorder :=
  { name := "s", version := "v", instance_id := "i",
    metrics := [({ name := "h", labels := [] }, sampleHistData)],
    descriptions := [] }

/-- Sample empty registry. -/
def sampleEmptyReg : OtlpRecorder := OtlpRecorder.new "s" "v" "i"

theorem specBucketIndex_le (x : F) : ∀ bs : List ℚ, specBucketIndex x bs ≤ bs.length := by
  intro bs
  induction bs with
  | nil => exact Nat.le_refl 0
  | cons b bs ih =>
    by_cases hle : F.le x (F.fin b) = true
    · simp [specBucketIndex, hle]
    · have h2 : F.le x (F.fin b) = false := by simpa using hle
      simp only [specBucketIndex, h2, Bool.false_eq_true, if_false, List.length_cons]
      omega

theorem F.lt_nan_right (p : F) : F.lt p F.nan = false := by
  cases p <;> rfl

theorem F.le_nan_left (p : F) : F.le F.nan p = false := by
  cases p <;> rfl

theorem F.le_true_lt_false (x : F) (b : ℚ) (hx : x ≠ F.nan)
    (h : F.le x (F.fin b) = true) : F.lt (F.fin b) x = false := by
  cases x with
  | nan => exact absurd rfl hx
  | inf => simp [F.le] at h
  | negInf => rfl
  | fin q =>
    simp only [F.le, decide_eq_true_eq] at h
    simp only [F.lt, decide_eq_false_iff_not]
    linarith

theorem F.le_false_lt_true (x : F) (b : ℚ) (hx : x ≠ F.nan)
    (h : F.le x (F.fin b) = false) : F.lt (F.fin b) x = true := by
  cases x with
  | nan => exact absurd rfl hx
  | inf => rfl
  | negInf => simp [F.le] at h
  | fin q =>
    simp only [F.le, decide_eq_false_iff_not] at h
    simp only [F.lt, decide_eq_true_eq]
    linarith

theorem F.le_mono (x : F) (b b2 : ℚ) (h : F.le x (F.fin b) = true)
    (hbb : b < b2) : F.lt (F.fin b2) x = false := by
  cases x with
  | nan => simp [F.le] at h
  | inf => simp [F.le] at h
  | negInf => rfl
  | fin q =>
    simp only [F.le, decide_eq_true_eq] at h
    simp only [F.lt, decide_eq_false_iff_not]
    linarith

/-- When value > prev fails at the current bound and at every later bound,
the scanning loop leaves the bucket counters untouched. -/
theorem bucketLoop_no_incr (x : F) :
    ∀ (bs : List F) (prev : F) (rest : List ℕ),
      F.lt prev x = false → (∀ b ∈ bs, F.lt b x = false) →
      bucketLoop x prev bs rest = rest := by
  intro bs
  induction bs with
  | nil =>
    intro prev rest hprev _
    cases rest with
    | nil => rfl
    | cons bucket rest2 => simp [bucketLoop, hprev]
  | cons b bs ih =>
    intro prev rest hprev hall
    cases rest with
    | nil => rfl
    | cons bucket rest2 =>
      have hb : F.lt b x = false := hall b (List.mem_cons_self b bs)
      have hbs : ∀ b2 ∈ bs, F.lt b2 x = false :=
        fun b2 h2 => hall b2 (List.mem_cons_of_mem b h2)
      simp [bucketLoop, hprev, ih b rest2 hb hbs]

theorem chain_head_lt_mem :
    ∀ (bs : List ℚ) (b : ℚ), List.Chain' (· < ·) (b :: bs) →
      ∀ b2 ∈ bs, b < b2 := by
  intro bs
  induction bs with
  | nil =>
    intro b _ b2 h2
    exact absurd h2 (List.not_mem_nil b2)
  | cons c cs ih =>
    intro b hch b2 h2
    have hbc : b < c := (List.chain'_cons.mp hch).1
    have hcs : List.Chain' (· < ·) (c :: cs) := (List.chain'_cons.mp hch).2
    rcases List.mem_cons.mp h2 with h | h
    · exact h ▸ hbc
    · exact lt_trans hbc (ih c hcs b2 h)

/-- When value > prev holds at entry, the scanning loop increments exactly
the bucket the specification designates and leaves every other bucket
unchanged. -/
theorem bucketLoop_incr (x : F) (hx : x ≠ F.nan) :
    ∀ (bs : List ℚ) (prev : ℚ) (rest : List ℕ),
      F.lt (F.fin prev) x = true →
      List.Chain' (· < ·) (prev :: bs) →
      rest.length = bs.length + 1 →
      bucketLoop x (F.fin prev) (bs.map F.fin) rest = incrAt rest (specBucketIndex x bs) := by
  intro bs
  induction bs with
  | nil =>
    intro prev rest hprev _ hlen
    cases rest with
    | nil => simp at hlen
    | cons bucket rest2 =>
      simp [bucketLoop, hprev, specBucketIndex, incrAt]
  | cons b bs ih =>
    intro prev rest hprev hch hlen
    cases rest with
    | nil => simp at hlen
    | cons bucket rest2 =>
      by_cases hle : F.le x (F.fin b) = true
      · have hlt : F.lt (F.fin b) x = false := F.le_true_lt_false x b hx hle
        have hall : ∀ fb ∈ bs.map F.fin, F.lt fb x = false := by
          intro fb hfb
          rcases List.mem_map.mp hfb with ⟨b2, hb2, rfl⟩
          exact F.le_mono x b b2 hle
            (chain_head_lt_mem bs b (List.chain'_cons.mp hch).2 b2 hb2)
        simp [bucketLoop, hprev, hle, specBucketIndex, incrAt,
          bucketLoop_no_incr x (bs.map F.fin) (F.fin b) rest2 hlt hall]
      · have hle2 : F.le x (F.fin b) = false := by simpa using hle
        have hlt : F.lt (F.fin b) x = true := F.le_false_lt_true x b hx hle2
        have hch2 : List.Chain' (· < ·) (b :: bs) := (List.chain'_cons.mp hch).2
        have hlen2 : rest2.length = bs.length + 1 := by simpa using hlen
        simp [bucketLoop, hprev, hle2, specBucketIndex, incrAt,
          ih b rest2 hlt hch2 hlen2]

/-- C2: for a histogram whose bounds are a non-empty strictly ascending
sequence of finite values and whose bucket list has one counter per bound
plus the overflow counter, recording a non-nan value applies the wrapping
u64 increment (the fetch_add of the source) to exactly one bucket counter —
the one at the index the specification designates (first bound greater than
or equal to the value, bucket 0 when the value is at most the first bound,
overflow bucket when the value exceeds every bound) — and leaves every
other bucket counter unchanged; the designated index is always inside the
bucket list. -/
theorem histogram_record_single_bucket (h : HistogramValue) (now : ℕ) (x : F)
    (bounds : List ℚ) (hx : x ≠ F.nan)
    (hb : h.explicit_bounds = bounds.map F.fin) (hne : bounds ≠ [])
    (hasc : List.Chain' (· < ·) bounds)
    (hlen : h.bucket_count.length = bounds.length + 1) :
    (h.record now x).bucket_count = incrAt h.bucket_count (specBucketIndex x bounds) ∧
    specBucketIndex x bounds < h.bucket_count.length := by
  obtain ⟨b, bs, rfl⟩ : ∃ b2 bs2, bounds = b2 :: bs2 := by
    cases bounds with
    | nil => exact absurd rfl hne
    | cons b2 bs2 => exact ⟨b2, bs2, rfl⟩
  constructor
  · cases hbc : h.bucket_count with
    | nil =>
      rw [hbc] at hlen
      simp at hlen
    | cons bucket rest =>
      have hlen2 : rest.length = bs.length + 1 := by
        rw [hbc] at hlen
        simpa using hlen
      by_cases hle : F.le x (F.fin b) = true
      · have hlt : F.lt (F.fin b) x = false := F.le_true_lt_false x b hx hle
        have hall : ∀ fb ∈ bs.map F.fin, F.lt fb x = false := by
          intro fb hfb
          rcases List.mem_map.mp hfb with ⟨b2, hb2, rfl⟩
          exact F.le_mono x b b2 hle (chain_head_lt_mem bs b hasc b2 hb2)
        simp [HistogramValue.record, hb, hbc, hle, specBucketIndex, incrAt,
          bucketLoop_no_incr x (bs.map F.fin) (F.fin b) rest hlt hall]
      · have hle2 : F.le x (F.fin b) = false := by simpa using hle
        have hlt : F.lt (F.fin b) x = true := F.le_false_lt_true x b hx hle2
        simp [HistogramValue.record, hb, hbc, hle2, specBucketIndex, incrAt,
          bucketLoop_incr x hx bs b rest hlt hasc hlen2]
  · have hsp := specBucketIndex_le x (b :: bs)
    simp only [List.length_cons] at hsp hlen
    omega

/-- Witness for C2: recording 3/2 against the bounds 1, 2, 100 increments
exactly the bucket at position 1. -/
theorem histogram_record_single_bucket_witness :
    (sampleHist.record 9 (F.fin (3 / 2))).bucket_count =
      incrAt sampleHist.bucket_count (specBucketIndex (F.fin (3 / 2)) [1, 2, 100]) ∧
    specBucketIndex (F.fin (3 / 2)) [1, 2, 100] < sampleHist.bucket_count.length :=
  histogram_record_single_bucket sampleHist 9 (F.fin (3 / 2)) [1, 2, 100]
    (by decide) rfl (by decide)
    (by norm_num [List.chain'_cons, List.chain'_singleton]) rfl

/-- Counterexample to C10 as stated: at observation count 2^64 - 1 — the
state that many nan records produce from the fresh single-bound histogram —
the wrapping fetch_add rolls the count over to 0 instead of incrementing it
by one, so after recording nan the bucket counter sum (0) is not strictly
below the observation count (0). -/
theorem histogram_record_nan_wrap_cex :
    (sampleHistBig.record 7 F.nan).count = 0 ∧
    (sampleHistBig.record 7 F.nan).count ≠ sampleHistBig.count + 1 ∧
    ¬((sampleHistBig.record 7 F.nan).bucket_count.sum <
        (sampleHistBig.record 7 F.nan).count) := by
  refine ⟨?_, ?_, ?_⟩
  · show (U64 - 1 + 1) % U64 = 0
    simp [U64]
  · show (U64 - 1 + 1) % U64 ≠ U64 - 1 + 1
    simp [U64]
  · intro hlt
    rw [show (sampleHistBig.record 7 F.nan).count = (U64 - 1 + 1) % U64 from rfl,
      Nat.sub_add_cancel (by simp [U64]), Nat.mod_self] at hlt
    omega

/-- C10 amended: recording nan against a histogram with configured bounds
whose observation count has not yet reached 2^64 - 1 increments the
observation count by one and no bucket counter, so whenever the bucket
counters summed to at most the count beforehand (true of every state a
created histogram can reach), the bucket counters sum to strictly less than
the observation count afterwards. -/
theorem histogram_record_nan (h : HistogramValue) (now : ℕ)
    (hne : h.explicit_bounds ≠ [])
    (hsum : h.bucket_count.sum ≤ h.count)
    (hcount : h.count + 1 < U64) :
    (h.record now F.nan).bucket_count = h.bucket_count ∧
    (h.record now F.nan).count = h.count + 1 ∧
    (h.record now F.nan).bucket_count.sum < (h.record now F.nan).count := by
  obtain ⟨e, es, hb⟩ : ∃ e es, h.explicit_bounds = e :: es := by
    cases hhe : h.explicit_bounds with
    | nil => exact absurd hhe hne
    | cons e es => exact ⟨e, es, rfl⟩
  have hbuckets : (h.record now F.nan).bucket_count = h.bucket_count := by
    cases hbc : h.bucket_count with
    | nil => simp [HistogramValue.record, hb, hbc]
    | cons bucket rest =>
      simp [HistogramValue.record, hb, hbc, F.le_nan_left,
        bucketLoop_no_incr F.nan es e rest (F.lt_nan_right e) (fun b2 _ => F.lt_nan_right b2)]
  have hcnt : (h.record now F.nan).count = h.count + 1 := by
    show (h.count + 1) % U64 = h.count + 1
    exact Nat.mod_eq_of_lt hcount
  refine ⟨hbuckets, hcnt, ?_⟩
  rw [hbuckets, hcnt]
  omega

/-- Witness for C10 at a fresh single-bound histogram. -/
theorem histogram_record_nan_witness :
    (sampleHistNan.record 4 F.nan).bucket_count = sampleHistNan.bucket_count ∧
    (sampleHistNan.record 4 F.nan).count = sampleHistNan.count + 1 ∧
    (sampleHistNan.record 4 F.nan).bucket_count.sum < (sampleHistNan.record 4 F.nan).count :=
  histogram_record_nan sampleHistNan 4 (by decide) (by decide) (by decide)

/-- C5: CounterValue::absolute (setAbsolute) leaves the magnitude equal to
max of the prior magnitude and the argument, so the magnitude never
decreases as a result of the call. -/
theorem counter_absolute_max (c : CounterValue) (now x : ℕ) :
    (c.absolute now x).value = max c.value x ∧ c.value ≤ (c.absolute now x).value :=
  ⟨rfl, le_max_left c.value x⟩

/-- C1: evaluating the serializer of json.rs on the resource fields the
repository test test_recorder_to_json uses yields a document with exactly
one resource and one scope, but whose resource attribute list is the single
attribute keyed by the service name itself and valued by the version — not
the three attributes service.name, service.version and service.instance.id
that the claim and the repository tests expect — and the instance-id cannot
occur in the document at all (metrics_to_json has no parameter for it, even
though its caller in otlp_recorder.rs passes it one). -/
theorem root_resource_attr_single :
    root "otlp-metrics" "1" [] =
      Json.obj [("resourceMetrics", Json.arr [Json.obj [
        ("resource", Json.obj [("attributes", Json.arr [attr "otlp-metrics" "1"])]),
        ("scopeMetrics", Json.arr [Json.obj [("metrics", Json.arr [])]])]])] ∧
    [attr "otlp-metrics" "1"].map attrKeyOf = ["otlp-metrics"] ∧
    ["otlp-metrics"] ≠ ["service.name", "service.version", "service.instance.id"] :=
  ⟨rfl, rfl, by decide⟩

/-- C8: taking a snapshot (to_json, with or without a window) is read-only:
the recorder state after the call is the input state — the ordered metric
collection, every accumulator value, bucket counter and timestamp inside
it, and the pending descriptions — so nothing is reset or modified
(cumulative temporality). -/
theorem to_json_preserves_state (r : OtlpRecorder) (now : ℕ) (period : Option ℕ) :
    (r.to_json now period).2 = r ∧
    (r.to_json now period).2.metrics = r.metrics ∧
    (r.to_json now period).2.descriptions = r.descriptions :=
  ⟨rfl, rfl, rfl⟩

/-- C9: describe (add_description) appends one pending declaration and
leaves the metric collection — hence the description and unit of every
already-created metric — unchanged. -/
theorem add_description_appends_only (r : OtlpRecorder) (key : String)
    (unit : Option String) (description : String) :
    (r.add_description key unit description).descriptions =
      r.descriptions ++ [{ key := key, description := description, unit := unit }] ∧
    (r.add_description key unit description).metrics = r.metrics :=
  ⟨rfl, rfl⟩

/-- C4: a metric whose last update happened at time T is selected by a
snapshot taken at time T + d with window W exactly when d is at most W, and
a snapshot taken with no window selects every registered metric. -/
theorem snapshot_window_membership (r : OtlpRecorder) (k : Key) (m : MetricData)
    (T d W : ℕ) (hmem : (k, m) ∈ r.metrics) (hT : metricTime m = T)
    (hfits : T + d < U64) :
    ((k, m) ∈ snapshotMetrics (T + d) (some W) r ↔ d ≤ W) ∧
    (k, m) ∈ snapshotMetrics (T + d) none r := by
  have hd : d < U64 := by omega
  have harith : (T + d + U64 - T) % U64 = d := by
    have h1 : T + d + U64 - T = d + U64 := by omega
    rw [h1, Nat.add_mod_right]
    exact Nat.mod_eq_of_lt hd
  refine ⟨?_, hmem⟩
  simp [snapshotMetrics, List.mem_filter, hmem, hT, harith]

/-- Witness for C4: last update at 100, snapshot at 105 with window 7
includes the metric, and the unwindowed snapshot includes it. -/
theorem snapshot_window_membership_witness :
    ((sampleKeyC, sampleCounterData) ∈ snapshotMetrics (100 + 5) (some 7) sampleWinReg ↔
      5 ≤ 7) ∧
    (sampleKeyC, sampleCounterData) ∈ snapshotMetrics (100 + 5) none sampleWinReg :=
  snapshot_window_membership sampleWinReg sampleKeyC sampleCounterData 100 5 7
    (List.mem_singleton.mpr rfl) rfl (by norm_num [U64])

/-- C3: when a metric with the requested name already exists with the
requested kind, registration returns the existing accumulator — the handle
is the position of that first name match in the ordered collection,
whatever the label set of the request — and the collection is unchanged, so
no new metric is added; two such registrations with the same name and any
label sets return the very same state and handle, hence updates through
either returned handle hit the same accumulator slot. -/
theorem register_same_name_returns_existing (r : OtlpRecorder) (now now2 : ℕ)
    (key key2 : Key) (p : Key × MetricData) (hname : key2.name = key.name)
    (hfind : r.metrics.find? (fun q => q.1.name == key.name) = some p) :
    ((∃ c, p.2.metric_type = .counter c) →
      r.register_counter now key =
        .ok (r, r.metrics.findIdx (fun q => q.1.name == key.name)) ∧
      r.register_counter now2 key2 = r.register_counter now key) ∧
    ((∃ g, p.2.metric_type = .gauge g) →
      r.register_gauge now key =
        .ok (r, r.metrics.findIdx (fun q => q.1.name == key.name)) ∧
      r.register_gauge now2 key2 = r.register_gauge now key) ∧
    ((∃ hh, p.2.metric_type = .histogram hh) →
      r.register_histogram now key =
        .ok (r, r.metrics.findIdx (fun q => q.1.name == key.name)) ∧
      r.register_histogram now2 key2 = r.register_histogram now key) := by
  refine ⟨?_, ?_, ?_⟩
  · rintro ⟨c, hc⟩
    constructor
    · simp [OtlpRecorder.register_counter, hfind, hc]
    · simp [OtlpRecorder.register_counter, hname, hfind, hc]
  · rintro ⟨g, hg⟩
    constructor
    · simp [OtlpRecorder.register_gauge, hfind, hg]
    · simp [OtlpRecorder.register_gauge, hname, hfind, hg]
  · rintro ⟨hh, hhist⟩
    constructor
    · simp [OtlpRecorder.register_histogram, hfind, hhist]
    · simp [OtlpRecorder.register_histogram, hname, hfind, hhist]

/-- Witness for C3: on the three-metric sample registry, registering each
name again with fresh label sets returns the existing slot and the
unchanged registry, independent of the labels. -/
theorem register_same_name_returns_existing_witness :
    (sampleReg3.register_counter 1 { name := "test_counter", labels := [("x", "y")] } =
        .ok (sampleReg3, 0) ∧
      sampleReg3.register_counter 2 { name := "test_counter", labels := [] } =
        sampleReg3.register_counter 1 { name := "test_counter", labels := [("x", "y")] }) ∧
    (sampleReg3.register_gauge 1 { name := "test_gauge", labels := [("x", "y")] } =
        .ok (sampleReg3, 1) ∧
      sampleReg3.register_gauge 2 { name := "test_gauge", labels := [] } =
        sampleReg3.register_gauge 1 { name := "test_gauge", labels := [("x", "y")] }) ∧
    (sampleReg3.register_histogram 1 { name := "test_histogram", labels := [("x", "y")] } =
        .ok (sampleReg3, 2) ∧
      sampleReg3.register_histogram 2 { name := "test_histogram", labels := [] } =
        sampleReg3.register_histogram 1 { name := "test_histogram", labels := [("x", "y")] }) := by
  refine ⟨?_, ?_, ?_⟩
  · exact (register_same_name_returns_existing sampleReg3 1 2
      { name := "test_counter", labels := [("x", "y")] }
      { name := "test_counter", labels := [] }
      (sampleKeyC, sampleCounterData) rfl (by decide)).1
      ⟨{ value := 2, time := 100 }, rfl⟩
  · exact ((register_same_name_returns_existing sampleReg3 1 2
      { name := "test_gauge", labels := [("x", "y")] }
      { name := "test_gauge", labels := [] }
      ({ name := "test_gauge", labels := [] }, sampleGaugeData) rfl (by decide)).2).1
      ⟨{ value := F.fin 0, time := 0 }, rfl⟩
  · exact ((register_same_name_returns_existing sampleReg3 1 2
      { name := "test_histogram", labels := [("x", "y")] }
      { name := "test_histogram", labels := [] }
      ({ name := "test_histogram", labels := [] }, sampleHistData) rfl (by decide)).2).2
      ⟨HistogramValue.from_bounds [], rfl⟩

/-- C6: requesting a kind different from the kind already registered under
the name halts the registering thread with the kind-mismatch fault: the
operation yields neither a handle nor a new metric. -/
theorem register_kind_mismatch_halts (r : OtlpRecorder) (now : ℕ) (key : Key)
    (p : Key × MetricData)
    (hfind : r.metrics.find? (fun q => q.1.name == key.name) = some p) :
    ((∀ c, p.2.metric_type ≠ .counter c) →
      r.register_counter now key = .error (.kindMismatch p.2.metric_type.display)) ∧
    ((∀ g, p.2.metric_type ≠ .gauge g) →
      r.register_gauge now key = .error (.kindMismatch p.2.metric_type.display)) ∧
    ((∀ hh, p.2.metric_type ≠ .histogram hh) →
      r.register_histogram now key = .error (.kindMismatch p.2.metric_type.display)) := by
  refine ⟨?_, ?_, ?_⟩
  · intro hne
    cases ht : p.2.metric_type with
    | counter c => exact absurd ht (hne c)
    | gauge g => simp [OtlpRecorder.register_counter, hfind, ht]
    | histogram hh => simp [OtlpRecorder.register_counter, hfind, ht]
  · intro hne
    cases ht : p.2.metric_type with
    | counter c => simp [OtlpRecorder.register_gauge, hfind, ht]
    | gauge g => exact absurd ht (hne g)
    | histogram hh => simp [OtlpRecorder.register_gauge, hfind, ht]
  · intro hne
    cases ht : p.2.metric_type with
    | counter c => simp [OtlpRecorder.register_histogram, hfind, ht]
    | gauge g => simp [OtlpRecorder.register_histogram, hfind, ht]
    | histogram hh => exact absurd ht (hne hh)

/-- Witness for C6: asking for a counter under the gauge name, and for a
gauge or a histogram under the counter name, each signals the kind-mismatch
fault. -/
theorem register_kind_mismatch_halts_witness :
    sampleReg3.register_counter 0 { name := "test_gauge", labels := [] } =
      .error (.kindMismatch "gauge") ∧
    sampleReg3.register_gauge 0 { name := "test_counter", labels := [] } =
      .error (.kindMismatch "counter") ∧
    sampleReg3.register_histogram 0 { name := "test_counter", labels := [] } =
      .error (.kindMismatch "counter") := by
  refine ⟨?_, ?_, ?_⟩
  · exact (register_kind_mismatch_halts sampleReg3 0 { name := "test_gauge", labels := [] }
      ({ name := "test_gauge", labels := [] }, sampleGaugeData) (by decide)).1
      (fun c h => nomatch h)
  · exact ((register_kind_mismatch_halts sampleReg3 0 { name := "test_counter", labels := [] }
      (sampleKeyC, sampleCounterData) (by decide)).2).1
      (fun g h => nomatch h)
  · exact ((register_kind_mismatch_halts sampleReg3 0 { name := "test_counter", labels := [] }
      (sampleKeyC, sampleCounterData) (by decide)).2).2
      (fun hh h => nomatch h)

/-- Counterexample to C7 as stated: when a histogram named h already exists,
register_histogram returns the existing accumulator before ever reading the
buckets label, so a registration whose buckets label holds the non-numeric
entry abc succeeds without any configuration fault. -/
theorem register_histogram_existing_skips_bucket_check :
    sampleHistReg.register_histogram 3 { name := "h", labels := [("buckets", "abc")] } =
      .ok (sampleHistReg, 0) := rfl

theorem parseBounds_error :
    ∀ l : List String, (∃ v ∈ l, parseF64 (trimChars v) = none) →
      ∃ s, parseBounds l = .error (.invalidBucket s) := by
  intro l
  induction l with
  | nil =>
    rintro ⟨v, hv, _⟩
    exact absurd hv (List.not_mem_nil v)
  | cons v rest ih =>
    rintro ⟨w, hw, hbad⟩
    rcases List.mem_cons.mp hw with h | h
    · subst h
      exact ⟨w, by simp [parseBounds, hbad]⟩
    · cases hv : parseF64 (trimChars v) with
      | none => exact ⟨v, by simp [parseBounds, hv]⟩
      | some f =>
        obtain ⟨s, hs⟩ := ih ⟨w, h, hbad⟩
        exact ⟨s, by simp [parseBounds, hv, hs, Except.map]⟩

/-- C7 amended: when no metric with the requested name exists yet, a
histogram registration whose identity carries a buckets label (the first
label with that key) whose comma-separated value contains an entry that
does not parse as a number halts the registering thread with the
invalid-bucket configuration fault at registration time; record operations
themselves never fail (record is total and always yields the updated
accumulator). -/
theorem register_histogram_invalid_bucket_halts (r : OtlpRecorder) (now : ℕ)
    (key : Key) (lab : String × String)
    (hnone : r.metrics.find? (fun q => q.1.name == key.name) = none)
    (hlab : key.labels.find? (fun l => l.1 == "buckets") = some lab)
    (hbad : ∃ v ∈ splitComma lab.2, parseF64 (trimChars v) = none) :
    (∃ s, r.register_histogram now key = .error (.invalidBucket s)) ∧
    ∀ (h : HistogramValue) (n : ℕ) (v : F), ∃ h2, h.record n v = h2 := by
  refine ⟨?_, fun h n v => ⟨h.record n v, rfl⟩⟩
  obtain ⟨s, hs⟩ := parseBounds_error (splitComma lab.2) hbad
  exact ⟨s, by simp [OtlpRecorder.register_histogram, hnone, hlab, hs]⟩

/-- Witness for C7 amended: on the empty registry, a histogram registration
whose buckets label is 10,abc halts with the invalid-bucket fault. -/
theorem register_histogram_invalid_bucket_halts_witness :
    (∃ s, sampleEmptyReg.register_histogram 0
        { name := "h2", labels := [("buckets", "10,abc")] } =
        .error (.invalidBucket s)) ∧
    ∀ (h : HistogramValue) (n : ℕ) (v : F), ∃ h2, h.record n v = h2 :=
  register_histogram_invalid_bucket_halts sampleEmptyReg 0
    { name := "h2", labels := [("buckets", "10,abc")] } ("buckets", "10,abc")
    (by decide) (by decide) ⟨"abc", by decide, by decide⟩

end OtlpMetrics
